import Mathlib

/-!
Shallow embedding of the `boost::http_proto` incremental HTTP/1.1 parser
(`basic_parser.ipp`) and of the BNF consume/validate helpers
(`bnf/algorithm.hpp`), together with proofs about the claimed behaviour.

Bytes are modelled as natural numbers (the values of the C++ `char`s,
0..255); the parser's buffer is the list of committed bytes, and reads past
the committed region (the C++ code can look at up to two bytes beyond a
scan limit) yield the value 0, a deterministic stand-in for the
indeterminate bytes of the C++ buffer.  Cursors are indices into that list.
All functions mirror the control flow of the source line by line; loops in
the source become fuel-indexed recursions, called with ample fuel.
-/

namespace HttpProto

/-- Error taxonomy of the library (`error.hpp` is referenced by the sources;
the enumeration follows the spec's taxonomy section).  `elem_end` is the
BNF-level sentinel `error::end`. -/
inductive Err where
  | ok
  | need_more
  | elem_end
  | bad_version
  | bad_field
  | bad_line_ending
  | bad_value
  | bad_content_length
  | bad_transfer_encoding
  | bad_chunk
  | bad_message
  | header_limit
  | body_limit
  | incomplete
deriving DecidableEq, Repr

/-- Parser states.  The source's `parse_header` uses `nothing_yet`,
`start_line`, `fields` and `body`; the full enumeration is the one the spec
lists for the state machine. -/
inductive PState where
  | nothing_yet
  | start_line
  | fields
  | body
  | chunk_header
  | chunk_body
  | chunk_trailer
  | complete
  | failed
deriving DecidableEq, Repr

/-- Convert a string literal into its list of byte values. -/
def bytes (s : String) : List Nat :=
  s.toList.map Char.toNat

/-- Read one byte of the buffer; positions outside the committed region
read as 0 (a deterministic model of the indeterminate C++ bytes there). -/
def rd (buf : List Nat) (i : Nat) : Nat :=
  buf.getD i 0

/-- The `ws_set` class: SP and HTAB. -/
def is_ws (b : Nat) : Bool :=
  decide (b = 32 ∨ b = 9)

/-- The `tchar_set` class, following the grammar comment in `parse_field`:
`"!" / "#" / "$" / "%" / "&" / "'" / "*" / "+" / "-" / "." / "^" / "_" /
backquote / "|" / "~" / DIGIT / ALPHA`. -/
def is_tchar (b : Nat) : Bool :=
  decide (b = 33 ∨ b = 35 ∨ b = 36 ∨ b = 37 ∨ b = 38 ∨ b = 39 ∨ b = 42 ∨
    b = 43 ∨ b = 45 ∨ b = 46 ∨ b = 94 ∨ b = 95 ∨ b = 96 ∨ b = 124 ∨
    b = 126 ∨ (48 ≤ b ∧ b ≤ 57) ∨ (65 ≤ b ∧ b ≤ 90) ∨ (97 ≤ b ∧ b ≤ 122))

/-- Modelled from the spec: `field_vchar_set` lives in `ctype.hpp`, which is
not among the sources; the spec's glossary defines field-vchar as any
visible ASCII character permitted in a field value, i.e. 0x21..0x7E. -/
def is_fvchar (b : Nat) : Bool :=
  decide (33 ≤ b ∧ b ≤ 126)

/-- Fuel-indexed scanner core: advance while the predicate holds. -/
def skipWF (p : Nat → Bool) (buf : List Nat) : Nat → Nat → Nat
  | 0, i => i
  | f + 1, i => if p (rd buf i) then skipWF p buf f (i + 1) else i

/-- The scanner `char_set::skip(first, last)` of the source: advance `i` while `i < last`
and the byte at `i` is in the set. -/
def skipW (p : Nat → Bool) (buf : List Nat) (i last : Nat) : Nat :=
  skipWF p buf (last - i) i

/-- Overwrite the three bytes at `j`, `j+1`, `j+2` with SP (the obs-fold
rewrite `in[0] = ' '; in[1] = ' '; in[2] = ' ';` of `parse_field`). -/
def set3 (buf : List Nat) (j : Nat) : List Nat :=
  ((buf.set j 32).set (j + 1) 32).set (j + 2) 32

/-- Result of the shared obs-fold / CRLF check of `parse_field`
(lines 537-563 of the source): either the loop finishes (`done`, with the
buffer, next position, error code, value-start option and value-end), or an
obs-fold was rewritten in place and the loop continues (`cont`). -/
inductive StepRes where
  | done (b : List Nat) (q : Nat) (e : Err) (a : Option Nat) (z : Nat)
  | cont (b : List Nat) (q : Nat)

/-- The obs-fold / CRLF check at position `j`: CR not followed by LF is
`bad_line_ending`; CRLF not followed by SP/HTAB ends the field (value end
`v1 = j`, resume at `j+2`); CRLF followed by SP/HTAB is an obs-fold, whose
three bytes are overwritten with SP and the trailing whitespace skipped;
anything else is `bad_field`. -/
def crlf_step (buf : List Nat) (j last : Nat) (v0 : Option Nat) : StepRes :=
  if rd buf j = 13 then
    if rd buf (j + 1) = 10 then
      if is_ws (rd buf (j + 2)) then
        let b2 := set3 buf j
        StepRes.cont b2 (skipW is_ws b2 (j + 3) last)
      else
        StepRes.done buf (j + 2) Err.ok (some (v0.getD j)) j
    else StepRes.done buf j Err.bad_line_ending v0 0
  else StepRes.done buf j Err.bad_field v0 0

/-- The value loop of `parse_field` (`for(;;)` at lines 487-568).  Carries
the (possibly already rewritten) buffer, the cursor, the reduced limit
(`end -= 3` has already happened) and the value start `v0`.  Returns the
buffer, the position after the final CRLF (meaningful only on `Err.ok`), the
error code, the value start and the value end. -/
def pf_loop (fuel : Nat) (buf : List Nat) (inp last : Nat) (v0 : Option Nat) :
    List Nat × Nat × Err × Option Nat × Nat :=
  match fuel with
  | 0 => (buf, inp, Err.need_more, v0, 0)
  | f + 1 =>
    if inp = last then (buf, inp, Err.need_more, v0, 0)
    else if is_fvchar (rd buf inp) then
      -- field-content: remember the value start, skip the run of
      -- field-vchar, then optional trailing SP/HTAB before CRLF
      let w0 := some (v0.getD inp)
      let i1 := skipW is_fvchar buf (inp + 1) last
      if i1 = last then (buf, i1, Err.need_more, w0, 0)
      else if is_ws (rd buf i1) then
        let i2 := skipW is_ws buf i1 last
        if rd buf i2 = 13 then
          if rd buf (i2 + 1) = 10 then
            if is_ws (rd buf (i2 + 2)) then (buf, i2, Err.bad_value, w0, 0)
            else (buf, i2 + 2, Err.ok, w0, i2)
          else (buf, i2, Err.bad_line_ending, w0, 0)
        else
          match crlf_step buf i2 last w0 with
          | StepRes.done b q e a z => (b, q, e, a, z)
          | StepRes.cont b q => pf_loop f b q last w0
      else
        match crlf_step buf i1 last w0 with
        | StepRes.done b q e a z => (b, q, e, a, z)
        | StepRes.cont b q => pf_loop f b q last w0
    else
      match crlf_step buf inp last v0 with
      | StepRes.done b q e a z => (b, q, e, a, z)
      | StepRes.cont b q => pf_loop f b q last v0

/-- Contiguous byte run `[a, b)` of the buffer (a `string_view`). -/
def slice (buf : List Nat) (a b : Nat) : List Nat :=
  (buf.drop a).take (b - a)

/-- Embedding of `basic_parser::parse_field`.  Returns the (possibly rewritten) buffer,
the position after the field's CRLF (the start position on error), the
error code, and the materialized `(name, value)` pair on success.  The
per-field semantic dispatch of the source (`string_to_field` plus
`do_connection` / `do_content_length` / `do_transfer_encoding` /
`do_upgrade`) is the identity on the error code because all four handlers
in the source have empty bodies. -/
def parse_field (buf : List Nat) (start last0 : Nat) :
    List Nat × Nat × Err × Option (List Nat × List Nat) :=
  if last0 - start < 3 then (buf, start, Err.need_more, none)
  else
    let last := last0 - 3
    let i0 := skipW is_tchar buf start last
    if i0 = last then (buf, start, Err.need_more, none)
    else if rd buf i0 = 58 then
      if i0 = start then (buf, start, Err.bad_field, none)
      else
        let r := pf_loop (buf.length + last0 + 8) buf
          (skipW is_ws buf (i0 + 1) last) last none
        if r.2.2.1 = Err.ok then
          (r.1, r.2.1, Err.ok,
            some (slice r.1 start i0, slice r.1 ((r.2.2.2.1).getD 0) r.2.2.2.2))
        else (r.1, start, r.2.2.1, none)
    else (buf, start, Err.bad_field, none)

/-- The field-block loop of `basic_parser::parse_fields`: a line that is
exactly CRLF ends the block; CR not followed by LF is `bad_line_ending`;
otherwise one field is parsed and the loop continues.  Returns the buffer,
the committed position, and the error code. -/
def parse_fields_loop (fuel : Nat) (buf : List Nat) (first last : Nat) :
    List Nat × Nat × Err :=
  match fuel with
  | 0 => (buf, first, Err.need_more)
  | f + 1 =>
    if last - first < 2 then (buf, first, Err.need_more)
    else if rd buf first = 13 then
      if rd buf (first + 1) = 10 then (buf, first + 2, Err.ok)
      else (buf, first, Err.bad_line_ending)
    else
      let r := parse_field buf first last
      if r.2.2.1 = Err.ok then parse_fields_loop f r.1 r.2.1 last
      else (r.1, first, r.2.2.1)

/-- Embedding of `basic_parser::parse_fields`, with fuel ample for the loop (each
successful field advances the cursor). -/
def parse_fields (buf : List Nat) (first last : Nat) : List Nat × Nat × Err :=
  parse_fields_loop (Nat.succ (last + 1)) buf first last

/-- Embedding of `basic_parser::parse_version`: needs 8 bytes, matches the literal
`HTTP/1.` and then `0` or `1`; returns the new position, error code, and
the recorded minor version. -/
def parse_version (buf : List Nat) (first last : Nat) : Nat × Err × Option Nat :=
  if last - first < 8 then (first, Err.need_more, none)
  else if rd buf first = 72 ∧ rd buf (first + 1) = 84 ∧ rd buf (first + 2) = 84 ∧
      rd buf (first + 3) = 80 ∧ rd buf (first + 4) = 47 ∧
      rd buf (first + 5) = 49 ∧ rd buf (first + 6) = 46 then
    if rd buf (first + 7) = 48 then (first + 8, Err.ok, some 0)
    else if rd buf (first + 7) = 49 then (first + 8, Err.ok, some 1)
    else (first, Err.bad_version, none)
  else (first, Err.bad_version, none)

/-- Modelled from the spec: the CRLF that ends the start line, checked
after the HTTP-version was parsed up to `v1`. -/
def psl_version_tail (buf : List Nat) (first last v1 : Nat)
    (ver : Option Nat) : Nat × Err × Option Nat :=
  if last - v1 < 2 then (first, Err.need_more, ver)
  else if rd buf v1 = 13 then
    if rd buf (v1 + 1) = 10 then (v1 + 2, Err.ok, ver)
    else (first, Err.bad_line_ending, ver)
  else (first, Err.bad_line_ending, ver)

/-- Modelled from the spec: the HTTP-version and terminating CRLF of the
request line, after the SP that follows the request-target at `t1`. -/
def psl_after_target (buf : List Nat) (first last t1 : Nat) :
    Nat × Err × Option Nat :=
  let r := parse_version buf (t1 + 1) last
  if r.2.1 = Err.ok then psl_version_tail buf first last r.1 r.2.2
  else (first, r.2.1, r.2.2)

/-- Modelled from the spec: `parse_start_line` is declared and called by
`parse_header` but its implementation is not among the sources.  The spec
gives the request grammar `method SP request-target SP HTTP-version CRLF`
with the method a nonempty token, the target raw visible bytes up to SP,
and the HTTP-version handled by `parse_version` (which is in the sources).
On any error the position is unchanged; the version component reports the
minor version once `parse_version` has matched it. -/
def parse_start_line (buf : List Nat) (first last : Nat) :
    Nat × Err × Option Nat :=
  let m1 := skipW is_tchar buf first last
  if m1 = last then (first, Err.need_more, none)
  else if m1 = first then (first, Err.bad_field, none)
  else if rd buf m1 = 32 then
    let t1 := skipW is_fvchar buf (m1 + 1) last
    if t1 = last then (first, Err.need_more, none)
    else if t1 = m1 + 1 then (first, Err.bad_field, none)
    else if rd buf t1 = 32 then psl_after_target buf first last t1
    else (first, Err.bad_field, none)
  else (first, Err.bad_field, none)

/-- The observable state of a `basic_parser`: the committed bytes (`buf`),
the capacity and the two cursors, the state-machine state, the header
limit (set to 8192 by the constructor and configurable nowhere in the
sources), and the recorded HTTP minor version. -/
structure Parser where
  buf : List Nat
  capacity : Nat
  committed : Nat
  parsed : Nat
  state : PState
  header_limit : Nat
  version : Option Nat
deriving DecidableEq, Repr

/-- The freshly constructed parser (`basic_parser::basic_parser`). -/
def initState : Parser :=
  { buf := []
    capacity := 0
    committed := 0
    parsed := 0
    state := PState.nothing_yet
    header_limit := 8192
    version := none }

/-- Embedding of `basic_parser::reset`: the body of the function in the source is
empty. -/
def reset (p : Parser) : Parser :=
  p

/-- Embedding of `basic_parser::prepare`: allocate 4096 bytes if there is no buffer,
grow by 4096 (copying the committed bytes) if the buffer is full, and
return the writable region (offset, size). -/
def prepare (p : Parser) : Parser × Nat × Nat :=
  if p.capacity = 0 then
    ({ p with capacity := 4096 }, p.committed, 4096 - p.committed)
  else if p.capacity ≤ p.committed then
    ({ p with capacity := p.capacity + 4096 }, p.committed,
      p.capacity + 4096 - p.committed)
  else (p, p.committed, p.capacity - p.committed)

/-- Embedding of `basic_parser::commit(n)` together with the caller's writes into the
prepared region: the `n = data.length` new bytes appear after the
previously committed bytes and the committed cursor advances.  The
source asserts `n > 0` and `n ≤ capacity - committed`. -/
def commit (p : Parser) (data : List Nat) : Parser :=
  { p with
    buf := p.buf.take p.committed ++ data
    committed := p.committed + data.length }

/-- Embedding of `basic_parser::commit_eof`: empty body in the source. -/
def commit_eof (p : Parser) : Parser :=
  p

/-- The `fields` phase of `parse_header`: run `parse_fields` from `pos0`;
on success the state becomes `body`, otherwise it stays `fields`; in both
cases `parsed` becomes the position reached and the buffer keeps any
obs-fold rewrites. -/
def parse_header_fields (p : Parser) (pos0 : Nat) (ver : Option Nat) :
    Parser × Err :=
  let r := parse_fields p.buf pos0 p.committed
  if r.2.2 = Err.ok then
    ({ p with
       buf := r.1
       parsed := r.2.1
       state := PState.body
       version := ver }, Err.ok)
  else
    ({ p with
       buf := r.1
       parsed := r.2.1
       state := PState.fields
       version := ver }, r.2.2)

/-- Record a newly parsed version if there is one. -/
def updVer (old new : Option Nat) : Option Nat :=
  match new with
  | some v => some v
  | none => old

/-- The `nothing_yet` / `start_line` phase of `parse_header`: the state is
set to `start_line`, the start line parsed, and on success the `fields`
phase runs immediately (the switch falls through). -/
def parse_header_start (p : Parser) : Parser × Err :=
  let r := parse_start_line p.buf p.parsed p.committed
  if r.2.1 = Err.ok then
    parse_header_fields
      { p with
        state := PState.fields
        version := updVer p.version r.2.2 } r.1 (updVer p.version r.2.2)
  else
    ({ p with
       parsed := r.1
       state := PState.start_line
       version := updVer p.version r.2.2 }, r.2.1)

/-- Embedding of `basic_parser::parse_header`: nothing to do when no bytes are
committed; otherwise dispatch on the state (states past `fields` return
immediately with a cleared error code). -/
def parse_header (p : Parser) : Parser × Err :=
  if p.committed = 0 then (p, Err.need_more)
  else
    match p.state with
    | PState.nothing_yet => parse_header_start p
    | PState.start_line => parse_header_start p
    | PState.fields => parse_header_fields p p.parsed p.version
    | _ => (p, Err.ok)

/-- Embedding of `basic_parser::parse_body`: the source only promotes `nothing_yet` to
`start_line` and touches nothing else. -/
def parse_body (p : Parser) : Parser :=
  match p.state with
  | PState.nothing_yet => { p with state := PState.start_line }
  | _ => p

/-- Embedding of `basic_parser::parse_body_part`: same body as `parse_body` in the
source. -/
def parse_body_part (p : Parser) : Parser :=
  match p.state with
  | PState.nothing_yet => { p with state := PState.start_line }
  | _ => p

/-- Embedding of `basic_parser::parse_chunk_ext`: empty body in the source. -/
def parse_chunk_ext (p : Parser) : Parser :=
  p

/-- Embedding of `basic_parser::parse_chunk_part`: empty body in the source. -/
def parse_chunk_part (p : Parser) : Parser :=
  p

/-- Embedding of `basic_parser::parse_chunk_trailer`: empty body in the source. -/
def parse_chunk_trailer (p : Parser) : Parser :=
  p

/-- The cursor invariant of the spec's data model:
`0 ≤ parsed ≤ committed ≤ capacity` (the lower bound is inherent in `Nat`),
together with the representation fact that `buf` is exactly the committed
bytes. -/
def Inv (p : Parser) : Prop :=
  p.parsed ≤ p.committed ∧ p.committed ≤ p.capacity ∧
    p.buf.length = p.committed

/-- Modelled from the spec: `error.hpp` is not among the sources, so the
`failed()` predicate of the error category is taken from the spec's
taxonomy: `need_more` is "not a failure", `end` is the BNF completion
sentinel, success is success; all syntax, policy, completion and container
errors fail. -/
def ec_failed (e : Err) : Bool :=
  match e with
  | Err.ok => false
  | Err.need_more => false
  | Err.elem_end => false
  | _ => true

/-- A BNF element: `parse(start, end, ec)` over a byte sequence, returning
the new position and the status code. -/
def Elem : Type :=
  List Nat → Nat → Nat → Nat × Err

/-- Embedding of `bnf::consume<Element>` from `algorithm.hpp`: run `parse`; a failed
code or any code other than `error::end` yields the start position,
otherwise the position the element reached. -/
def consume (e : Elem) (s : List Nat) (start last : Nat) : Nat :=
  let r := e s start last
  if ec_failed r.2 then start
  else if r.2 = Err.elem_end then r.1
  else start

/-- Embedding of `bnf::is_valid<BNF>` from `algorithm.hpp`: `consume` over the whole
string must land on its end. -/
def is_valid (e : Elem) (s : List Nat) : Bool :=
  decide (consume e s 0 s.length = s.length)

/-! ### Basic lemmas about reads, scans and the three-byte rewrite -/

lemma rd_oob {l : List Nat} {i : Nat} (h : l.length ≤ i) : rd l i = 0 :=
  List.getD_eq_default l 0 h

lemma lt_length_of_rd_ne {l : List Nat} {i : Nat} (h : rd l i ≠ 0) :
    i < l.length := by
  by_contra hc
  exact h (rd_oob (Nat.le_of_not_lt hc))

lemma is_ws_ne_zero {b : Nat} (h : is_ws b = true) : b ≠ 0 := by
  simp only [is_ws, decide_eq_true_eq] at h
  omega

lemma skipWF_ge (p : Nat → Bool) (buf : List Nat) :
    ∀ f i, i ≤ skipWF p buf f i := by
  intro f
  induction f with
  | zero => intro i; exact Nat.le_refl i
  | succ f ih =>
    intro i
    simp only [skipWF]
    split
    · exact Nat.le_trans (Nat.le_succ i) (ih (i + 1))
    · exact Nat.le_refl i

lemma skipW_ge (p : Nat → Bool) (buf : List Nat) (i last : Nat) :
    i ≤ skipW p buf i last :=
  skipWF_ge p buf (last - i) i

lemma rd_set_ne {l : List Nat} {i j : Nat} (v : Nat) (h : i ≠ j) :
    rd (l.set i v) j = rd l j := by
  simp [rd, List.getElem?_set_ne h]

lemma rd_set_self {l : List Nat} {i : Nat} (v : Nat) (h : i < l.length) :
    rd (l.set i v) i = v := by
  simp [rd, List.getD, List.getElem?_set_eq_of_lt v h]

lemma length_set3 (l : List Nat) (j : Nat) : (set3 l j).length = l.length := by
  simp [set3]

lemma rd_set3_ne {l : List Nat} {j k : Nat}
    (h0 : k ≠ j) (h1 : k ≠ j + 1) (h2 : k ≠ j + 2) :
    rd (set3 l j) k = rd l k := by
  unfold set3
  rw [rd_set_ne 32 (Ne.symm h2), rd_set_ne 32 (Ne.symm h1),
    rd_set_ne 32 (Ne.symm h0)]

lemma rd_set3_self0 {l : List Nat} {j : Nat} (h : j < l.length) :
    rd (set3 l j) j = 32 := by
  unfold set3
  rw [rd_set_ne 32 (by omega : j + 2 ≠ j), rd_set_ne 32 (by omega : j + 1 ≠ j)]
  exact rd_set_self 32 h

lemma rd_set3_self1 {l : List Nat} {j : Nat} (h : j + 1 < l.length) :
    rd (set3 l j) (j + 1) = 32 := by
  unfold set3
  rw [rd_set_ne 32 (by omega : j + 2 ≠ j + 1)]
  exact rd_set_self 32 (by simpa using h)

lemma rd_set3_self2 {l : List Nat} {j : Nat} (h : j + 2 < l.length) :
    rd (set3 l j) (j + 2) = 32 := by
  unfold set3
  exact rd_set_self 32 (by simpa using h)

/-! ### Inversion lemmas for the obs-fold / CRLF step -/

lemma crlf_step_done {buf : List Nat} {j last : Nat} {v0 : Option Nat}
    {b : List Nat} {q : Nat} {e : Err} {a : Option Nat} {z : Nat}
    (h : crlf_step buf j last v0 = StepRes.done b q e a z) :
    b = buf ∧ e ≠ Err.header_limit ∧
      (e = Err.ok → rd buf j = 13 ∧ rd buf (j + 1) = 10 ∧ q = j + 2) := by
  by_cases c1 : rd buf j = 13
  · by_cases c2 : rd buf (j + 1) = 10
    · by_cases c3 : is_ws (rd buf (j + 2)) = true
      · simp [crlf_step, c1, c2, c3] at h
      · simp [crlf_step, c1, c2, c3, StepRes.done.injEq] at h
        obtain ⟨hb, hq, he, _, _⟩ := h
        subst hb hq he
        exact ⟨rfl, by decide, fun _ => ⟨c1, c2, rfl⟩⟩
    · simp [crlf_step, c1, c2, StepRes.done.injEq] at h
      obtain ⟨hb, hq, he, _, _⟩ := h
      subst hb hq he
      exact ⟨rfl, by decide, fun hok => Err.noConfusion hok⟩
  · simp [crlf_step, c1, StepRes.done.injEq] at h
    obtain ⟨hb, hq, he, _, _⟩ := h
    subst hb hq he
    exact ⟨rfl, by decide, fun hok => Err.noConfusion hok⟩

lemma crlf_step_cont {buf : List Nat} {j last : Nat} {v0 : Option Nat}
    {b : List Nat} {q : Nat}
    (h : crlf_step buf j last v0 = StepRes.cont b q) :
    rd buf j = 13 ∧ rd buf (j + 1) = 10 ∧ is_ws (rd buf (j + 2)) = true ∧
      b = set3 buf j ∧ q = skipW is_ws (set3 buf j) (j + 3) last := by
  by_cases c1 : rd buf j = 13
  · by_cases c2 : rd buf (j + 1) = 10
    · by_cases c3 : is_ws (rd buf (j + 2)) = true
      · simp only [crlf_step, c1, c2, c3, if_true, if_pos] at h
        simp only [StepRes.cont.injEq] at h
        exact ⟨c1, c2, c3, h.1.symm, h.2.symm⟩
      · simp [crlf_step, c1, c2, c3] at h
    · simp [crlf_step, c1, c2] at h
  · simp [crlf_step, c1] at h

/-! ### The obs-fold rewrite relation -/

/-- The relation `FoldRewrites orig out lo` says the buffer `out` differs from `orig`
only inside three-byte groups at positions `p ≥ lo` that held an obs-fold
(CR LF then SP/HTAB) in `orig` and hold SP SP SP in `out`. -/
def FoldRewrites (orig out : List Nat) (lo : Nat) : Prop :=
  ∀ i, rd out i ≠ rd orig i →
    ∃ p, lo ≤ p ∧ (i = p ∨ i = p + 1 ∨ i = p + 2) ∧
      rd orig p = 13 ∧ rd orig (p + 1) = 10 ∧ is_ws (rd orig (p + 2)) = true ∧
      rd out p = 32 ∧ rd out (p + 1) = 32 ∧ rd out (p + 2) = 32

lemma foldRewrites_refl (b : List Nat) (lo : Nat) : FoldRewrites b b lo :=
  fun _ h => absurd rfl h

lemma foldRewrites_mono {orig out : List Nat} {lo lo' : Nat} (h : lo' ≤ lo)
    (hf : FoldRewrites orig out lo) : FoldRewrites orig out lo' := by
  intro i hi
  obtain ⟨p, hp, rest⟩ := hf i hi
  exact ⟨p, Nat.le_trans h hp, rest⟩

/-- Composing one in-place obs-fold rewrite at `j` with later rewrites
(which all happen at positions `≥ j + 3`) again yields only obs-fold
rewrites with respect to the original buffer. -/
lemma foldRewrites_step {buf out : List Nat} {j inp lo : Nat}
    (hj : inp ≤ j) (hlo : j + 3 ≤ lo)
    (h13 : rd buf j = 13) (h10 : rd buf (j + 1) = 10)
    (hws : is_ws (rd buf (j + 2)) = true)
    (hrec : FoldRewrites (set3 buf j) out lo) :
    FoldRewrites buf out inp := by
  have hj0 : j < buf.length := lt_length_of_rd_ne (by rw [h13]; decide)
  have hj1 : j + 1 < buf.length := lt_length_of_rd_ne (by rw [h10]; decide)
  have hj2 : j + 2 < buf.length := lt_length_of_rd_ne (is_ws_ne_zero hws)
  intro i hi
  by_cases hsame : rd out i = rd (set3 buf j) i
  · have hne : rd (set3 buf j) i ≠ rd buf i := by
      rw [← hsame]; exact hi
    have hij : i = j ∨ i = j + 1 ∨ i = j + 2 := by
      by_contra hc
      push_neg at hc
      exact hne (rd_set3_ne hc.1 hc.2.1 hc.2.2)
    have hag : ∀ k, k < lo → rd out k = rd (set3 buf j) k := by
      intro k hk
      by_contra hck
      obtain ⟨p, hp, hkp, _⟩ := hrec k hck
      omega
    refine ⟨j, hj, hij, h13, h10, hws, ?_, ?_, ?_⟩
    · rw [hag j (by omega), rd_set3_self0 hj0]
    · rw [hag (j + 1) (by omega), rd_set3_self1 hj1]
    · rw [hag (j + 2) (by omega), rd_set3_self2 hj2]
  · obtain ⟨p, hp, hip, c13, c10, cws, o0, o1, o2⟩ := hrec i hsame
    have hp3 : j + 3 ≤ p := Nat.le_trans hlo hp
    rw [rd_set3_ne (by omega) (by omega) (by omega)] at c13
    rw [rd_set3_ne (by omega) (by omega) (by omega)] at c10
    rw [rd_set3_ne (by omega) (by omega) (by omega)] at cws
    exact ⟨p, by omega, hip, c13, c10, cws, o0, o1, o2⟩

/-! ### Combined invariants of the `parse_field` value loop -/

/-- The four facts tracked through the value loop: the buffer length is
preserved, a successful exit lands inside the buffer, `header_limit` is
never produced, and any mutation is an obs-fold rewrite at or after the
loop entry position. -/
def Pack (buf : List Nat) (inp : Nat)
    (r : List Nat × Nat × Err × Option Nat × Nat) : Prop :=
  r.1.length = buf.length ∧ (r.2.2.1 = Err.ok → r.2.1 ≤ buf.length) ∧
    r.2.2.1 ≠ Err.header_limit ∧ FoldRewrites buf r.1 inp

lemma pack_err (buf : List Nat) (inp X Z : Nat) (E : Err) (A : Option Nat)
    (hE : E ≠ Err.ok) (hL : E ≠ Err.header_limit) :
    Pack buf inp (buf, X, E, A, Z) :=
  ⟨rfl, fun h => absurd h hE, hL, foldRewrites_refl _ _⟩

lemma pack_ok (buf : List Nat) (inp q Z : Nat) (A : Option Nat)
    (h10 : rd buf (q + 1) = 10) :
    Pack buf inp (buf, q + 2, Err.ok, A, Z) := by
  have hlt : q + 1 < buf.length := lt_length_of_rd_ne (by rw [h10]; decide)
  refine ⟨rfl, fun _ => ?_, ?_, foldRewrites_refl _ _⟩
  · show q + 2 ≤ buf.length
    omega
  · show Err.ok ≠ Err.header_limit
    decide

lemma pack_done {buf : List Nat} {j last : Nat} {w : Option Nat}
    {b : List Nat} {q : Nat} {e : Err} {a : Option Nat} {z : Nat} {inp : Nat}
    (heq : crlf_step buf j last w = StepRes.done b q e a z) :
    Pack buf inp (b, q, e, a, z) := by
  obtain ⟨hb, hL, hok⟩ := crlf_step_done heq
  refine ⟨by rw [hb], fun h => ?_, hL, by rw [hb]; exact foldRewrites_refl _ _⟩
  obtain ⟨c13, c10, hq⟩ := hok h
  have hlt : j + 1 < buf.length := lt_length_of_rd_ne (by rw [c10]; decide)
  show q ≤ buf.length
  omega

lemma pack_cont (f : Nat) {buf : List Nat} {j last inp : Nat} {w : Option Nat}
    {b : List Nat} {q : Nat} (hj : inp ≤ j)
    (heq : crlf_step buf j last w = StepRes.cont b q)
    (ihp : Pack b q (pf_loop f b q last w)) :
    Pack buf inp (pf_loop f b q last w) := by
  obtain ⟨c13, c10, cws, hb, hq⟩ := crlf_step_cont heq
  have hlen : b.length = buf.length := by rw [hb]; exact length_set3 _ _
  obtain ⟨i1, i2, i3, i4⟩ := ihp
  refine ⟨by rw [i1, hlen], fun h => by have := i2 h; omega, i3, ?_⟩
  have hq3 : j + 3 ≤ q := by
    rw [hq]; exact skipW_ge _ _ _ _
  refine foldRewrites_step hj hq3 c13 c10 cws ?_
  rw [← hb]
  exact i4

lemma pf_loop_props : ∀ (f : Nat) (buf : List Nat) (inp last : Nat)
    (v0 : Option Nat), Pack buf inp (pf_loop f buf inp last v0) := by
  intro f
  induction f with
  | zero =>
    intro buf inp last v0
    exact pack_err buf inp inp 0 Err.need_more v0 (by decide) (by decide)
  | succ f ih =>
    intro buf inp last v0
    simp only [pf_loop]
    repeat' split
    all_goals first
      | exact pack_err _ _ _ _ _ _ (by decide) (by decide)
      | (rename_i c13 c10 cws
         exact pack_ok _ _ _ _ _ c10)
      | (rename_i heq
         exact pack_done heq)
      | (rename_i heq
         refine pack_cont f ?_ heq (ih _ _ _ _)
         have h1 := skipW_ge is_fvchar buf (inp + 1) last
         have h2 := skipW_ge is_ws buf (skipW is_fvchar buf (inp + 1) last) last
         omega)

lemma fstP {A B : Type} (a : A) (b : B) : ((a, b) : A × B).1 = a := rfl

lemma sndP {A B : Type} (a : A) (b : B) : ((a, b) : A × B).2 = b := rfl

/-- Combined facts about `parse_field`: length preservation, a successful
exit lands inside the buffer, errors leave the cursor at `start`, the
`header_limit` error is never produced, and the only mutations are
obs-fold rewrites at or after `start`. -/
lemma parse_field_props (buf : List Nat) (start last0 : Nat) :
    (parse_field buf start last0).1.length = buf.length ∧
    ((parse_field buf start last0).2.2.1 = Err.ok →
      (parse_field buf start last0).2.1 ≤ buf.length) ∧
    ((parse_field buf start last0).2.2.1 ≠ Err.ok →
      (parse_field buf start last0).2.1 = start) ∧
    (parse_field buf start last0).2.2.1 ≠ Err.header_limit ∧
    FoldRewrites buf (parse_field buf start last0).1 start := by
  have hst : start ≤
      skipW is_ws buf (skipW is_tchar buf start (last0 - 3) + 1) (last0 - 3) := by
    have h1 := skipW_ge is_tchar buf start (last0 - 3)
    have h2 := skipW_ge is_ws buf
      (skipW is_tchar buf start (last0 - 3) + 1) (last0 - 3)
    omega
  simp only [parse_field]
  repeat' split
  all_goals first
    | (refine ⟨rfl, ?_, fun _ => rfl, ?_, foldRewrites_refl _ _⟩ <;>
        exact fun h => nomatch h)
    | (rename_i hok
       refine ⟨(pf_loop_props _ _ _ _ _).1, ?_, ?_, ?_,
         foldRewrites_mono hst (pf_loop_props _ _ _ _ _).2.2.2⟩
       · exact fun _ => (pf_loop_props _ _ _ _ _).2.1 hok
       · exact fun hne => absurd rfl hne
       · exact fun h => nomatch h)
    | (rename_i hne
       refine ⟨(pf_loop_props _ _ _ _ _).1, ?_, fun _ => rfl,
         (pf_loop_props _ _ _ _ _).2.2.1,
         foldRewrites_mono hst (pf_loop_props _ _ _ _ _).2.2.2⟩
       exact fun h => absurd h hne)

/-- Combined facts about the field-block loop: length preservation, the
cursor stays inside the buffer, and `header_limit` is never produced. -/
lemma parse_fields_loop_props : ∀ (f : Nat) (buf : List Nat) (first last : Nat),
    (parse_fields_loop f buf first last).1.length = buf.length ∧
    (first ≤ buf.length →
      (parse_fields_loop f buf first last).2.1 ≤ buf.length) ∧
    (parse_fields_loop f buf first last).2.2 ≠ Err.header_limit := by
  intro f
  induction f with
  | zero =>
    intro buf first last
    refine ⟨rfl, ?_, ?_⟩
    · exact fun h => h
    · exact fun h => nomatch h
  | succ f ih =>
    intro buf first last
    simp only [parse_fields_loop]
    repeat' split
    all_goals first
      | (refine ⟨rfl, ?_, ?_⟩
         · exact fun h => h
         · exact fun h => nomatch h)
      | (rename_i c13 c10
         refine ⟨rfl, ?_, ?_⟩
         · intro hf
           show first + 2 ≤ buf.length
           have hlt : first + 1 < buf.length :=
             lt_length_of_rd_ne (by rw [c10]; decide)
           omega
         · exact fun h => nomatch h)
      | (rename_i cok
         have hp := parse_field_props buf first last
         refine ⟨((ih _ _ _).1).trans hp.1, ?_, (ih _ _ _).2.2⟩
         intro hf
         have hle1 : (parse_field buf first last).2.1 ≤
             (parse_field buf first last).1.length := by
           rw [hp.1]
           exact hp.2.1 cok
         have h2 := (ih (parse_field buf first last).1
           (parse_field buf first last).2.1 last).2.1 hle1
         rw [hp.1] at h2
         exact h2)
      | (rename_i cne
         refine ⟨(parse_field_props _ _ _).1, ?_,
           (parse_field_props _ _ _).2.2.2.1⟩
         exact fun hf => hf)

lemma parse_version_no_hl (buf : List Nat) (first last : Nat) :
    (parse_version buf first last).2.1 ≠ Err.header_limit := by
  simp only [parse_version]
  repeat' split
  all_goals exact fun h => nomatch h

lemma psl_version_tail_le (buf : List Nat) (first last v1 : Nat)
    (ver : Option Nat) (h : first ≤ last) :
    (psl_version_tail buf first last v1 ver).1 ≤ last := by
  simp only [psl_version_tail]
  repeat' split
  all_goals try simp only [fstP, sndP]
  all_goals omega

lemma psl_after_target_le (buf : List Nat) (first last t1 : Nat)
    (h : first ≤ last) : (psl_after_target buf first last t1).1 ≤ last := by
  simp only [psl_after_target]
  split
  · exact psl_version_tail_le _ _ _ _ _ h
  · simp only [fstP]
    exact h

lemma parse_start_line_le (buf : List Nat) (first last : Nat)
    (h : first ≤ last) : (parse_start_line buf first last).1 ≤ last := by
  simp only [parse_start_line]
  repeat' split
  all_goals try simp only [fstP, sndP]
  all_goals first
    | omega
    | exact psl_after_target_le _ _ _ _ h

lemma psl_version_tail_no_hl (buf : List Nat) (first last v1 : Nat)
    (ver : Option Nat) :
    (psl_version_tail buf first last v1 ver).2.1 ≠ Err.header_limit := by
  simp only [psl_version_tail]
  repeat' split
  all_goals exact fun h => nomatch h

lemma psl_after_target_no_hl (buf : List Nat) (first last t1 : Nat) :
    (psl_after_target buf first last t1).2.1 ≠ Err.header_limit := by
  simp only [psl_after_target]
  split
  · exact psl_version_tail_no_hl _ _ _ _ _
  · exact parse_version_no_hl _ _ _

lemma parse_start_line_no_hl (buf : List Nat) (first last : Nat) :
    (parse_start_line buf first last).2.1 ≠ Err.header_limit := by
  simp only [parse_start_line]
  repeat' split
  all_goals try exact psl_after_target_no_hl _ _ _ _
  all_goals exact fun h => nomatch h

/-! ### Preservation of the cursor invariant -/

lemma parse_fields_props (buf : List Nat) (first last : Nat) :
    (parse_fields buf first last).1.length = buf.length ∧
    (first ≤ buf.length → (parse_fields buf first last).2.1 ≤ buf.length) ∧
    (parse_fields buf first last).2.2 ≠ Err.header_limit :=
  parse_fields_loop_props (Nat.succ (last + 1)) buf first last

lemma inv_parse_header_fields {p : Parser} (h : Inv p) (pos0 : Nat)
    (hp : pos0 ≤ p.committed) (ver : Option Nat) :
    Inv (parse_header_fields p pos0 ver).1 := by
  obtain ⟨h1, h2, h3⟩ := h
  have hf := parse_fields_props p.buf pos0 p.committed
  have hple : pos0 ≤ p.buf.length := by rw [h3]; exact hp
  have hr1 : (parse_fields p.buf pos0 p.committed).2.1 ≤ p.committed := by
    have hx := hf.2.1 hple
    rw [h3] at hx
    exact hx
  have hr2 : (parse_fields p.buf pos0 p.committed).1.length = p.committed := by
    rw [hf.1]
    exact h3
  simp only [parse_header_fields]
  split
  · exact ⟨hr1, h2, hr2⟩
  · exact ⟨hr1, h2, hr2⟩

lemma inv_parse_header_start {p : Parser} (h : Inv p) :
    Inv (parse_header_start p).1 := by
  obtain ⟨h1, h2, h3⟩ := h
  have hle := parse_start_line_le p.buf p.parsed p.committed h1
  simp only [parse_header_start]
  split
  · exact inv_parse_header_fields ⟨h1, h2, h3⟩ _ hle _
  · exact ⟨hle, h2, h3⟩

lemma inv_parse_header {p : Parser} (h : Inv p) : Inv (parse_header p).1 := by
  by_cases hc : p.committed = 0
  · simp only [parse_header, if_pos hc]
    exact h
  · simp only [parse_header, if_neg hc]
    cases hps : p.state <;> simp only [hps]
    all_goals first
      | exact inv_parse_header_start h
      | exact inv_parse_header_fields h _ h.1 _
      | exact h

lemma parse_header_fields_no_hl (p : Parser) (pos0 : Nat) (ver : Option Nat) :
    (parse_header_fields p pos0 ver).2 ≠ Err.header_limit := by
  simp only [parse_header_fields]
  split
  · exact fun h => nomatch h
  · exact (parse_fields_props _ _ _).2.2

lemma parse_header_start_no_hl (p : Parser) :
    (parse_header_start p).2 ≠ Err.header_limit := by
  simp only [parse_header_start]
  split
  · exact parse_header_fields_no_hl _ _ _
  · exact parse_start_line_no_hl _ _ _

/-- One-step unfolding of the field-block loop at nonzero fuel. -/
lemma parse_fields_loop_succ (f : Nat) (buf : List Nat) (first last : Nat) :
    parse_fields_loop (Nat.succ f) buf first last =
      if last - first < 2 then (buf, first, Err.need_more)
      else if rd buf first = 13 then
        if rd buf (first + 1) = 10 then (buf, first + 2, Err.ok)
        else (buf, first, Err.bad_line_ending)
      else
        if (parse_field buf first last).2.2.1 = Err.ok then
          parse_fields_loop f (parse_field buf first last).1
            (parse_field buf first last).2.1 last
        else ((parse_field buf first last).1, first,
          (parse_field buf first last).2.2.1) :=
  rfl

/-! ### The claims -/

/-- C1: the claim says every input whose start-line + fields + CRLF exceed
the configured header limit (8192 by default) makes `parse_header` report
`header_limit`.  The code refutes it: the constructor stores
`header_limit_ = 8192` but no parsing routine ever consults it, and this
theorem shows `parse_header` can never return `header_limit`, for any
parser whatsoever; a syntactically valid over-long header parses
successfully. -/
theorem parse_header_never_header_limit (p : Parser) :
    (parse_header p).2 ≠ Err.header_limit := by
  by_cases hc : p.committed = 0
  · simp only [parse_header, if_pos hc]
    exact fun h => nomatch h
  · simp only [parse_header, if_neg hc]
    cases hps : p.state <;> simp only [hps]
    all_goals first
      | exact parse_header_start_no_hl _
      | exact parse_header_fields_no_hl _ _ _
      | exact fun h => nomatch h

/-- A parser that has committed the 16 bytes of a request line with the
invalid version literal `XTTP/1.1`. -/
def c2state : Parser :=
  { buf := bytes ("GET / XTTP/1.1\r\n")
    capacity := 4096
    committed := 16
    parsed := 0
    state := PState.nothing_yet
    header_limit := 8192
    version := none }

/-- C2: the claim says any syntax error moves the parser to the `failed`
state, terminal until `reset()`.  The code refutes it: after the
`bad_version` syntax error the state is `start_line`, not `failed` (no
code path ever assigns the `failed` state), a second `parse_header` call
simply re-parses and reports the same error again, and `reset()` (whose
body is empty) changes nothing. -/
theorem bad_version_state_not_failed :
    (parse_header c2state).2 = Err.bad_version ∧
    (parse_header c2state).1.state = PState.start_line ∧
    (parse_header c2state).1.state ≠ PState.failed ∧
    (parse_header ((parse_header c2state).1)).2 = Err.bad_version ∧
    reset ((parse_header c2state).1) = (parse_header c2state).1 := by
  decide

/-- A parser mid-message: the start line of a request has been consumed
(16 bytes), a partial field followed, and the version was recorded. -/
def c3state : Parser :=
  { buf := bytes ("GET / HTTP/1.1\r\nHost")
    capacity := 4096
    committed := 20
    parsed := 16
    state := PState.fields
    header_limit := 8192
    version := some 1 }

/-- C3: the claim says `reset()` returns the parser to the freshly
constructed state (cursors zero, state `nothing_yet`, no version).  The
code refutes it: the body of `reset()` is empty, so it is the identity,
and on a mid-message parser everything (cursors, state, version) is
retained. -/
theorem reset_retains_all_state :
    (∀ p : Parser, reset p = p) ∧
    (reset c3state).parsed = 16 ∧
    (reset c3state).state = PState.fields ∧
    (reset c3state).version = some 1 := by
  refine ⟨fun p => rfl, ?_, ?_, ?_⟩ <;> decide

/-- C4: during field parsing every obs-fold (CRLF followed by SP/HTAB) is
overwritten in place with three SP bytes and nothing else in the buffer
changes (`FoldRewrites`); in particular `"X: a\r\n b\r\n\r\n"` parses to
field `X` with value `"a   b"` (three spaces), the buffer having become
`"X: a   b\r\n\r\n"`. -/
theorem obs_fold_rewritten_in_place :
    (∀ (buf : List Nat) (start last0 : Nat),
      FoldRewrites buf (parse_field buf start last0).1 start) ∧
    parse_field (bytes ("X: a\r\n b\r\n\r\n")) 0 12 =
      (bytes ("X: a   b\r\n\r\n"), 10, Err.ok,
        some (bytes ("X"), bytes ("a   b"))) := by
  constructor
  · intro buf start last0
    exact (parse_field_props buf start last0).2.2.2.2
  · decide

/-- Witness: at position 4 of the obs-fold example the buffer was changed,
and the change is the advertised three-SP rewrite of a CR LF SP group. -/
theorem obs_fold_rewritten_in_place_witness :
    ∃ p, 0 ≤ p ∧ (4 = p ∨ 4 = p + 1 ∨ 4 = p + 2) ∧
      rd (bytes ("X: a\r\n b\r\n\r\n")) p = 13 ∧
      rd (bytes ("X: a\r\n b\r\n\r\n")) (p + 1) = 10 ∧
      is_ws (rd (bytes ("X: a\r\n b\r\n\r\n")) (p + 2)) = true ∧
      rd (parse_field (bytes ("X: a\r\n b\r\n\r\n")) 0 12).1 p = 32 ∧
      rd (parse_field (bytes ("X: a\r\n b\r\n\r\n")) 0 12).1 (p + 1) = 32 ∧
      rd (parse_field (bytes ("X: a\r\n b\r\n\r\n")) 0 12).1 (p + 2) = 32 :=
  obs_fold_rewritten_in_place.1 (bytes ("X: a\r\n b\r\n\r\n")) 0 12 4 (by decide)

/-- C5: with fewer than 3 bytes past the cursor, `parse_field` returns
`need_more` having committed nothing: same buffer (no mutation), cursor
still at `start`, and no field emitted. -/
theorem parse_field_short_input_need_more (buf : List Nat)
    (start last0 : Nat) (h : last0 - start < 3) :
    parse_field buf start last0 = (buf, start, Err.need_more, none) := by
  simp only [parse_field, if_pos h]

/-- Witness: two available bytes produce `need_more` with no progress. -/
theorem parse_field_short_input_need_more_witness :
    parse_field (bytes ("X:")) 0 2 = (bytes ("X:"), 0, Err.need_more, none) :=
  parse_field_short_input_need_more (bytes ("X:")) 0 2 (by decide)

/-- The eight bytes the version parser examines. -/
def win8 (buf : List Nat) (i : Nat) : List Nat :=
  [rd buf i, rd buf (i + 1), rd buf (i + 2), rd buf (i + 3), rd buf (i + 4),
    rd buf (i + 5), rd buf (i + 6), rd buf (i + 7)]

/-- C6: `parse_version` accepts exactly the literals `HTTP/1.0` (minor
version 0) and `HTTP/1.1` (minor version 1), consuming 8 bytes; any other
8 bytes yield `bad_version` with the cursor unchanged; fewer than 8
available bytes yield `need_more` with the cursor unchanged. -/
theorem parse_version_literal (buf : List Nat) (first last : Nat) :
    (last - first < 8 →
      parse_version buf first last = (first, Err.need_more, none)) ∧
    (8 ≤ last - first → win8 buf first = bytes ("HTTP/1.0") →
      parse_version buf first last = (first + 8, Err.ok, some 0)) ∧
    (8 ≤ last - first → win8 buf first = bytes ("HTTP/1.1") →
      parse_version buf first last = (first + 8, Err.ok, some 1)) ∧
    (8 ≤ last - first → win8 buf first ≠ bytes ("HTTP/1.0") →
      win8 buf first ≠ bytes ("HTTP/1.1") →
      parse_version buf first last = (first, Err.bad_version, none)) := by
  have hb0 : bytes ("HTTP/1.0") = [72, 84, 84, 80, 47, 49, 46, 48] := rfl
  have hb1 : bytes ("HTTP/1.1") = [72, 84, 84, 80, 47, 49, 46, 49] := rfl
  refine ⟨?_, ?_, ?_, ?_⟩
  · intro h
    simp only [parse_version, if_pos h]
  · intro h8 hw
    rw [hb0] at hw
    simp only [win8, List.cons.injEq, and_true] at hw
    obtain ⟨e0, e1, e2, e3, e4, e5, e6, e7⟩ := hw
    have hn : ¬ (last - first < 8) := by omega
    simp [parse_version, hn, e0, e1, e2, e3, e4, e5, e6, e7]
  · intro h8 hw
    rw [hb1] at hw
    simp only [win8, List.cons.injEq, and_true] at hw
    obtain ⟨e0, e1, e2, e3, e4, e5, e6, e7⟩ := hw
    have hn : ¬ (last - first < 8) := by omega
    simp [parse_version, hn, e0, e1, e2, e3, e4, e5, e6, e7]
  · intro h8 h0 h1
    have hn : ¬ (last - first < 8) := by omega
    by_cases hpre : rd buf first = 72 ∧ rd buf (first + 1) = 84 ∧
        rd buf (first + 2) = 84 ∧ rd buf (first + 3) = 80 ∧
        rd buf (first + 4) = 47 ∧ rd buf (first + 5) = 49 ∧
        rd buf (first + 6) = 46
    · obtain ⟨p0, p1, p2, p3, p4, p5, p6⟩ := hpre
      by_cases h7a : rd buf (first + 7) = 48
      · exfalso
        apply h0
        rw [hb0]
        simp only [win8, p0, p1, p2, p3, p4, p5, p6, h7a]
      · by_cases h7b : rd buf (first + 7) = 49
        · exfalso
          apply h1
          rw [hb1]
          simp only [win8, p0, p1, p2, p3, p4, p5, p6, h7b]
        · simp only [parse_version, if_neg hn]
          rw [if_pos ⟨p0, p1, p2, p3, p4, p5, p6⟩, if_neg h7a, if_neg h7b]
    · simp only [parse_version, if_neg hn, if_neg hpre]

/-- Witness: the three behaviours at concrete inputs. -/
theorem parse_version_literal_witness :
    parse_version (bytes ("HTTP/1.1")) 0 8 = (8, Err.ok, some 1) ∧
    parse_version (bytes ("XTTP/1.1")) 0 8 = (0, Err.bad_version, none) ∧
    parse_version (bytes ("HTTP/1.")) 0 7 = (0, Err.need_more, none) := by
  refine ⟨?_, ?_, ?_⟩
  · exact (parse_version_literal (bytes ("HTTP/1.1")) 0 8).2.2.1
      (by decide) (by decide)
  · exact (parse_version_literal (bytes ("XTTP/1.1")) 0 8).2.2.2
      (by decide) (by decide) (by decide)
  · exact (parse_version_literal (bytes ("HTTP/1.")) 0 7).1 (by decide)

/-- A parser in the `fields` state whose next two committed bytes are the
block-terminating CRLF. -/
def c7state : Parser :=
  { buf := bytes ("\r\n")
    capacity := 4096
    committed := 2
    parsed := 0
    state := PState.fields
    header_limit := 8192
    version := some 1 }

/-- C7: in field-block parsing (given the 2 bytes of look-ahead the code
demands) a line starting with CR must be exactly CRLF: CR followed by LF
ends the header block with the cursor advanced past the CRLF, and at the
`parse_header` level completes the `fields` state into `body`; CR followed
by anything else is `bad_line_ending` with no progress. -/
theorem fields_crlf_terminates :
    (∀ (buf : List Nat) (first last : Nat), 2 ≤ last - first →
      rd buf first = 13 →
      ((rd buf (first + 1) = 10 →
        parse_fields buf first last = (buf, first + 2, Err.ok)) ∧
       (rd buf (first + 1) ≠ 10 →
        parse_fields buf first last = (buf, first, Err.bad_line_ending)))) ∧
    (∀ p : Parser, p.state = PState.fields → 2 ≤ p.committed - p.parsed →
      rd p.buf p.parsed = 13 → rd p.buf (p.parsed + 1) = 10 →
      parse_header p =
        ({ p with parsed := p.parsed + 2, state := PState.body }, Err.ok)) := by
  constructor
  · intro buf first last h2 h13
    have hn : ¬ (last - first < 2) := by omega
    constructor
    · intro h10
      simp only [parse_fields]
      rw [parse_fields_loop_succ, if_neg hn, if_pos h13, if_pos h10]
    · intro h10
      simp only [parse_fields]
      rw [parse_fields_loop_succ, if_neg hn, if_pos h13, if_neg h10]
  · intro p hst h2 h13 h10
    have hc : ¬ (p.committed = 0) := by omega
    have hn : ¬ (p.committed - p.parsed < 2) := by omega
    have hpf : parse_fields p.buf p.parsed p.committed =
        (p.buf, p.parsed + 2, Err.ok) := by
      simp only [parse_fields]
      rw [parse_fields_loop_succ, if_neg hn, if_pos h13, if_pos h10]
    simp only [parse_header, if_neg hc, hst]
    simp only [parse_header_fields, hpf]
    rfl

/-- Witness: the terminating CRLF, a bad line ending, and the
`parse_header`-level completion, at concrete inputs. -/
theorem fields_crlf_terminates_witness :
    parse_fields (bytes ("\r\nZ")) 0 2 = (bytes ("\r\nZ"), 2, Err.ok) ∧
    parse_fields (bytes ("\rZ")) 0 2 =
      (bytes ("\rZ"), 0, Err.bad_line_ending) ∧
    parse_header c7state =
      ({ c7state with parsed := 2, state := PState.body }, Err.ok) := by
  refine ⟨?_, ?_, ?_⟩
  · exact (fields_crlf_terminates.1 (bytes ("\r\nZ")) 0 2
      (by decide) (by decide)).1 (by decide)
  · exact (fields_crlf_terminates.1 (bytes ("\rZ")) 0 2
      (by decide) (by decide)).2 (by decide)
  · exact fields_crlf_terminates.2 c7state rfl (by decide) (by decide) (by decide)

/-- C8: all public parser operations preserve the cursor invariant
`0 ≤ parsed ≤ committed ≤ capacity` (with `commit` under its stated
precondition `1 ≤ n ≤` size of the prepared region). -/
theorem parser_cursor_invariant (p : Parser) (data : List Nat)
    (h : Inv p) :
    Inv (prepare p).1 ∧
    (1 ≤ data.length → data.length ≤ p.capacity - p.committed →
      Inv (commit p data)) ∧
    Inv (parse_header p).1 ∧
    Inv (parse_body p) ∧
    Inv (parse_body_part p) ∧
    Inv (parse_chunk_ext p) ∧
    Inv (parse_chunk_part p) ∧
    Inv (parse_chunk_trailer p) := by
  obtain ⟨h1, h2, h3⟩ := h
  refine ⟨?_, ?_, inv_parse_header ⟨h1, h2, h3⟩, ?_, ?_,
    ⟨h1, h2, h3⟩, ⟨h1, h2, h3⟩, ⟨h1, h2, h3⟩⟩
  · simp only [prepare]
    repeat' split
    · refine ⟨h1, ?_, h3⟩
      show p.committed ≤ 4096
      rename_i hc
      omega
    · refine ⟨h1, ?_, h3⟩
      show p.committed ≤ p.capacity + 4096
      omega
    · exact ⟨h1, h2, h3⟩
  · intro hn1 hn2
    refine ⟨?_, ?_, ?_⟩
    · show p.parsed ≤ p.committed + data.length
      omega
    · show p.committed + data.length ≤ p.capacity
      omega
    · show (p.buf.take p.committed ++ data).length =
        p.committed + data.length
      rw [List.length_append, List.length_take]
      omega
  · cases hps : p.state <;> simp only [parse_body, hps] <;>
      exact ⟨h1, h2, h3⟩
  · cases hps : p.state <;> simp only [parse_body_part, hps] <;>
      exact ⟨h1, h2, h3⟩

/-- Witness: the invariant discharge at the freshly constructed parser. -/
theorem parser_cursor_invariant_witness :
    Inv (prepare initState).1 ∧
    (1 ≤ ([65] : List Nat).length →
      ([65] : List Nat).length ≤ initState.capacity - initState.committed →
      Inv (commit initState [65])) ∧
    Inv (parse_header initState).1 ∧
    Inv (parse_body initState) ∧
    Inv (parse_body_part initState) ∧
    Inv (parse_chunk_ext initState) ∧
    Inv (parse_chunk_part initState) ∧
    Inv (parse_chunk_trailer initState) :=
  parser_cursor_invariant initState [65] ⟨by decide, by decide, by decide⟩

/-- A sample BNF element whose `parse` recognizes everything up to `last`
and signals `error::end` there. -/
def elemAll : Elem := fun _ _ last => (last, Err.elem_end)

/-- C9: `is_valid` holds exactly when `consume` over the whole string lands
on its end, and `consume` over one element returns the position the
element's `parse` reached exactly when the status is the `end` sentinel,
and the start position otherwise (non-match or error). -/
theorem is_valid_iff_consume_all :
    (∀ (e : Elem) (s : List Nat),
      is_valid e s = true ↔ consume e s 0 s.length = s.length) ∧
    (∀ (e : Elem) (s : List Nat) (start last : Nat),
      consume e s start last =
        if (e s start last).2 = Err.elem_end then (e s start last).1
        else start) := by
  constructor
  · intro e s
    simp [is_valid]
  · intro e s start last
    by_cases hE : (e s start last).2 = Err.elem_end
    · have hF : ec_failed (e s start last).2 = false := by
        rw [hE]
        rfl
      simp only [consume]
      rw [hF, if_neg Bool.false_ne_true, if_pos hE]
    · by_cases hF : ec_failed (e s start last).2 = true
      · simp only [consume]
        rw [if_pos hF, if_neg hE]
      · simp only [consume]
        rw [if_neg hF, if_neg hE]

/-- Witness: the two statements instantiated at a concrete element and
string. -/
theorem is_valid_iff_consume_all_witness :
    consume elemAll (bytes ("a")) 0 1 =
      (if (elemAll (bytes ("a")) 0 1).2 = Err.elem_end
        then (elemAll (bytes ("a")) 0 1).1 else 0) ∧
    (is_valid elemAll (bytes ("a")) = true ↔
      consume elemAll (bytes ("a")) 0 (bytes ("a")).length =
        (bytes ("a")).length) :=
  ⟨is_valid_iff_consume_all.2 elemAll (bytes ("a")) 0 1,
    is_valid_iff_consume_all.1 elemAll (bytes ("a"))⟩

/-- C10: with zero committed bytes `parse_header` returns `need_more`
immediately and the parser (state, cursors, buffer) is untouched. -/
theorem parse_header_zero_committed (p : Parser) (h : p.committed = 0) :
    parse_header p = (p, Err.need_more) := by
  simp only [parse_header, if_pos h]

/-- Witness: the freshly constructed parser has nothing committed. -/
theorem parse_header_zero_committed_witness :
    parse_header initState = (initState, Err.need_more) :=
  parse_header_zero_committed initState rfl

end HttpProto
